import Mathlib

/- Verification development for the WebLayer3D layer-tree engine
   (three-web-layer, `src/three-web-layer.ts`).  Every definition below is a
   shallow embedding of a function or code region of that file; line numbers
   refer to it.  JS numbers are modelled as exact rationals, DOM identities as
   naturals, textures as opaque natural ids. -/

namespace ThreeWebLayer

/-- DOM bounding box as produced by `domUtils.getBounds`: `{left, top, width, height}`. -/
structure Bounds where
  left : ℚ
  top : ℚ
  width : ℚ
  height : ℚ
deriving DecidableEq

/-- A 3D vector over exact rationals (THREE.Vector3, used for layout arithmetic). -/
structure Vec3 where
  x : ℚ
  y : ℚ
  z : ℚ
deriving DecidableEq

/-- `WebLayer3D.DEFAULT_LAYER_SEPARATION = 0.005` (line 73). -/
def DEFAULT_LAYER_SEPARATION : ℚ := 5 / 1000

/-- `WebLayer3D.DEFAULT_PIXEL_DIMENSIONS = 0.001` (line 74). -/
def DEFAULT_PIXEL_DIMENSIONS : ℚ := 1 / 1000

/-- `ZERO_BOUNDS` (line 27). -/
def ZERO_BOUNDS : Bounds := ⟨0, 0, 0, 0⟩

/-- One hover-depth slot of a texture state: `{texture, bounds}` (lines 231-236).
`texture = none` models `texture: null`; `boundsOpt = none` models the initial
empty object `bounds` whose `width`/`height` are still `undefined`. -/
structure SlotData where
  texture : Option ℕ
  boundsOpt : Option Bounds
deriving DecidableEq

/-- The per-layer fields of a `WebLayer3D` instance that the per-layer refresh
pipeline reads and writes (lines 218-254), for a childless layer.  `states` is
the `_states` string map (insertion ordered), `parentBounds` is
`this.parent.bounds` when the parent is a `WebLayer3D` and `none` otherwise. -/
structure SLayer where
  classes : List String
  declaredStates : List String
  hoverDepth : ℕ
  hover : ℕ
  state : String
  states : List (String × List SlotData)
  needsRasterize : Bool
  needsRemoval : Bool
  useDOMLayout : Bool
  level : ℕ
  layerSeparationOpt : Option ℚ
  parentBounds : Option Bounds
  contentTargetOpacity : ℚ
  targetPosition : Vec3
  contentScale : Vec3
  lastTargetPosition : Vec3
  lastContentScale : Vec3
deriving DecidableEq

/-- First-match association lookup into the `_states` map (JS property access). -/
def findState : List (String × List SlotData) → String → Option (List SlotData)
  | [], _ => none
  | (k, v) :: rest, s => if k = s then some v else findState rest s

/-- The cache-filling loop of `_updateState` (lines 611-621): for each declared
state key in order, create a fresh entry (here `rep`, the `hoverDepth + 1`
empty slots) when the key is not yet cached. -/
def fillStates (rep : List SlotData) (acc : List (String × List SlotData)) :
    List String → List (String × List SlotData)
  | [] => acc
  | k :: rest =>
    fillStates rep (if (findState acc k).isSome then acc else acc ++ [(k, rep)]) rest

/-- `_updateState` (lines 563-622): rebuild the declared-state list from the
states attribute (always appending the implicit default state `""`), pick the
current state as the first class in the live class list that is a declared
state, prune cached states that are no longer declared, and create missing
cache entries with `hoverDepth + 1` empty slots. -/
def updateState (l : SLayer) : SLayer :=
  let statesList := l.declaredStates.filter (fun s => s ≠ "") ++ [""]
  let st := match l.classes.find? (fun c => statesList.contains c) with
    | some c => c
    | none => ""
  let pruned := l.states.filter (fun kv => statesList.contains kv.1)
  let filled :=
    fillStates (List.replicate (l.hoverDepth + 1) ⟨none, none⟩) pruned statesList
  { l with state := st, states := filled }

/-- `this._states[this.state] || this._states['']` in the `texture`/`bounds`
getters (lines 404-412): the cache entry for the current state when it exists,
otherwise the entry for the default state (a missing default yields `[]`). -/
def stateSlots (l : SLayer) : List SlotData :=
  match findState l.states l.state with
  | some slots => slots
  | none => (findState l.states "").getD []

/-- `state[this.hover] || state[0]` (lines 406, 411): the slot at the current
hover depth when that index exists, else slot 0. -/
def selectedSlot (l : SLayer) : Option SlotData :=
  match (stateSlots l)[l.hover]? with
  | some sd => some sd
  | none => (stateSlots l)[0]?

/-- The `texture` getter (lines 404-407). -/
def textureGetter (l : SLayer) : Option ℕ :=
  (selectedSlot l).bind (fun sd => sd.texture)

/-- The `bounds` getter (lines 409-412). -/
def boundsGetter (l : SLayer) : Option Bounds :=
  (selectedSlot l).bind (fun sd => sd.boundsOpt)

/-- The state key the getters resolve to (`this.state` when cached, else `""`). -/
def selKey (l : SLayer) : String :=
  if (findState l.states l.state).isSome then l.state else ""

/-- The slot index the getters resolve to (`this.hover` when in range, else 0). -/
def selIdx (l : SLayer) : ℕ :=
  if ((stateSlots l)[l.hover]?).isSome then l.hover else 0

/-- Overwrite the `bounds` sub-object of slot `i` (in-place mutation of the
object returned by the `bounds` getter). -/
def writeSlotBounds (slots : List SlotData) (i : ℕ) (b : Bounds) : List SlotData :=
  match slots[i]? with
  | some sd => slots.set i { sd with boundsOpt := some b }
  | none => slots

/-- Apply `g` to the slots stored under key `K` of the `_states` map (the JS
code mutates that one slots array in place). -/
def writeStateSlots (K : String) (g : List SlotData → List SlotData) :
    List (String × List SlotData) → List (String × List SlotData)
  | [] => []
  | (k0, v) :: rest =>
    (if k0 = K then (k0, g v) else (k0, v)) :: writeStateSlots K g rest

/-- `_updateBounds` (lines 628-630): `domUtils.getBounds(this.element, this.bounds)`
writes the element's live bounding box into the slot object currently returned
by the `bounds` getter. -/
def updateBounds (l : SLayer) (elemBounds : Bounds) : SLayer :=
  let g := fun v => writeSlotBounds v (selIdx l) elemBounds
  { l with states := writeStateSlots (selKey l) g l.states }

/-- `options.layerSeparation || WebLayer3D.DEFAULT_LAYER_SEPARATION` (line 662):
the JS `||` falls back to the default when the option is absent or `0`. -/
def layerSeparationOf (o : Option ℚ) : ℚ :=
  match o with
  | some s => if s = 0 then DEFAULT_LAYER_SEPARATION else s
  | none => DEFAULT_LAYER_SEPARATION

/-- The opening assignments of `_updateTargetLayout` (lines 633-638): reset the
target transform to the last committed values before recomputing it. -/
def resetTargets (l : SLayer) : SLayer :=
  { l with targetPosition := l.lastTargetPosition, contentScale := l.lastContentScale }

/-- The remainder of `_updateTargetLayout` (lines 640-681): a layer marked for
removal, or whose current bounds have zero width or height, gets
`contentTargetOpacity = 0` and returns early.  Otherwise opacity is 1, the
DOM-derived position (when `useDOMLayout`) is computed from the bounding-box
delta against the parent bounds (`ZERO_BOUNDS` when the parent is not a
layer), and the content scale is the pixel-scaled size floored at `10e-6`.
The `none` bounds branch corresponds to a still-empty bounds object, whose
`undefined` fields fail the `=== 0` checks (so opacity is set to 1) and would
propagate NaN through the position arithmetic; it is unreachable after
`_updateBounds` and only the opacity assignment is modelled there. -/
def updateTargetLayoutBody (l0 : SLayer) : SLayer :=
  if l0.needsRemoval then { l0 with contentTargetOpacity := 0 }
  else
    match boundsGetter l0 with
    | some b =>
      if b.width = 0 ∨ b.height = 0 then { l0 with contentTargetOpacity := 0 }
      else
        let pixelSize := DEFAULT_PIXEL_DIMENSIONS
        let pb := l0.parentBounds.getD ZERO_BOUNDS
        let left := b.left - pb.left
        let top := b.top - pb.top
        let parentOriginX := pixelSize * (-pb.width / 2)
        let parentOriginY := pixelSize * (pb.height / 2)
        let layerSeparation := layerSeparationOf l0.layerSeparationOpt
        let myLeft := pixelSize * (left + b.width / 2)
        let myTop := pixelSize * (top + b.height / 2)
        let pos := if l0.useDOMLayout then
            Vec3.mk (parentOriginX + myLeft) (parentOriginY - myTop)
              (layerSeparation * (l0.level : ℚ))
          else l0.targetPosition
        let cs := Vec3.mk (max (pixelSize * b.width) (1 / 100000))
          (max (pixelSize * b.height) (1 / 100000)) 1
        { l0 with contentTargetOpacity := 1, targetPosition := pos, contentScale := cs,
                  lastTargetPosition := pos, lastContentScale := cs }
    | none => { l0 with contentTargetOpacity := 1 }

/-- `_updateTargetLayout` (lines 632-682). -/
def updateTargetLayout (l : SLayer) : SLayer :=
  updateTargetLayoutBody (resetTargets l)

/-- `refresh` (lines 540-555) restricted to a single childless layer with the
DOM held fixed: `_updateState`, `_updateBounds`, then clear `needsRasterize`
and enqueue (push when absent from the root rasterization queue) when
`needsRasterize || forceRasterize` held, then `_updateTargetLayout` and
`_updateMesh` (the latter touches no modelled field).  The returned Bool
records whether the enqueue branch ran. -/
def refreshSingle (l : SLayer) (elemBounds : Bounds) (force : Bool) : SLayer × Bool :=
  let l1 := updateState l
  let l2 := updateBounds l1 elemBounds
  if l2.needsRasterize || force then
    (updateTargetLayout { l2 with needsRasterize := false }, true)
  else (updateTargetLayout l2, false)

/-- One state × hover slot iteration of `_rasterize` (lines 792-839): capture
the bounds of the configured element; when the width or height is zero
(`!bounds.width || !bounds.height`) the slot is skipped entirely — no bounds
stored, no texture committed, and this is not an error; otherwise the bounds
are stored and a texture is committed, reusing the already-allocated texture
object when present (`state.texture || new THREE.Texture(...)`). -/
def rasterizeSlot (sd : SlotData) (configBounds : Bounds) (freshTexture : ℕ) : SlotData :=
  if configBounds.width = 0 ∨ configBounds.height = 0 then sd
  else { texture := some (sd.texture.getD freshTexture), boundsOpt := some configBounds }

/-- `arraySubtract` (lines 874-880). -/
def arraySubtract (a b : List String) : List String :=
  a.filter (fun c => ¬ b.contains c)

/-- `_processMutations` (lines 310-352) specialised to a `class`-attribute
record whose target is this layer's own element: skip when the live class
value equals `record.oldValue`; otherwise the layer is dirtied iff some added
or removed class is neither `"hover"` nor a key of the layer's texture-state
cache (`layer._states[c]`). -/
def processOwnClassMutation (l : SLayer) (oldClasses newClasses : List String) : SLayer :=
  if newClasses = oldClasses then l
  else
    let addedClasses := arraySubtract newClasses oldClasses
    let removedClasses := arraySubtract oldClasses newClasses
    let dirty := (removedClasses ++ addedClasses).any
      (fun c => ¬ (c = "hover" ∨ (findState l.states c).isSome))
    if dirty then { l with needsRasterize := true } else l

/-- Setting the element's live class list (`element.classList` mutation). -/
def setClasses (l : SLayer) (cs : List String) : SLayer := { l with classes := cs }

/-- One step of the state round-trip scenario: overwrite the live class list
with `cs`, deliver the resulting `class`-attribute mutation record to the root
observer, then run a `refresh(false)` pass with the element's live bounds. -/
def classSwitchStep (l : SLayer) (cs : List String) (elemBounds : Bounds) : SLayer × Bool :=
  let oldClasses := l.classes
  let l1 := processOwnClassMutation (setClasses l cs) oldClasses cs
  refreshSingle l1 elemBounds false

/-- The full state round-trip of claim C7: switch the live class list to `[s]`,
then to `[]` (the default state), then back to `[s]`, with a mutation-record
delivery and a `refresh(false)` pass after each switch.  Returns the final
layer and the three per-refresh enqueue flags. -/
def roundTripC7 (l : SLayer) (s : String) (b : Bounds) : SLayer × (Bool × Bool × Bool) :=
  let r1 := classSwitchStep l [s] b
  let r2 := classSwitchStep r1.1 [] b
  let r3 := classSwitchStep r2.1 [s] b
  (r3.1, (r1.2, r2.2, r3.2))

/-- Every cached state of the layer has at least one hover slot (established by
`_updateState`, which creates entries with `hoverDepth + 1 ≥ 1` slots). -/
def wfSlots (l : SLayer) : Prop :=
  ∀ kv ∈ l.states, kv.2 ≠ []

instance (l : SLayer) : Decidable (wfSlots l) := by
  unfold wfSlots
  infer_instance

/-- Shift a bounding box by a fixed offset (used to state that DOM-derived
positions depend on the absolute coordinates only through the deltas). -/
def shiftBounds (bb : Bounds) (dx dy : ℚ) : Bounds :=
  { bb with left := bb.left + dx, top := bb.top + dy }

/-- The child layer of end-to-end scenario 2: a freshly discovered layer at
nesting level 1 with no declared states, whose parent layer currently has
bounds with `left = 20`, `top = 10`. -/
def c1Child : SLayer :=
  { classes := []
    declaredStates := []
    hoverDepth := 0
    hover := 0
    state := ""
    states := []
    needsRasterize := true
    needsRemoval := false
    useDOMLayout := true
    level := 1
    layerSeparationOpt := none
    parentBounds := some ⟨20, 10, 0, 0⟩
    contentTargetOpacity := 0
    targetPosition := ⟨0, 0, 0⟩
    contentScale := ⟨1, 1, 1⟩
    lastTargetPosition := ⟨0, 0, 0⟩
    lastContentScale := ⟨1 / 10, 1 / 10, 1 / 10⟩ }

/-- A layer with one declared state `"near"` whose slot 0 has already been
rasterized (texture id 7), currently showing that state (used as a concrete
instance for the state round-trip and getter claims). -/
def nearLayer : SLayer :=
  { classes := ["near"]
    declaredStates := ["near"]
    hoverDepth := 0
    hover := 0
    state := "near"
    states := [("near", [⟨some 7, some ⟨0, 0, 5, 5⟩⟩]), ("", [⟨none, none⟩])]
    needsRasterize := false
    needsRemoval := false
    useDOMLayout := true
    level := 1
    layerSeparationOpt := none
    parentBounds := some ⟨0, 0, 8, 8⟩
    contentTargetOpacity := 1
    targetPosition := ⟨0, 0, 0⟩
    contentScale := ⟨1, 1, 1⟩
    lastTargetPosition := ⟨0, 0, 0⟩
    lastContentScale := ⟨1 / 10, 1 / 10, 1 / 10⟩ }

/- ---------------------------------------------------------------------------
   Tree-level model.  A `WL` is a layer subtree; `WLData` carries the per-node
   fields that the queue/removal/transition machinery reads and writes.
--------------------------------------------------------------------------- -/

/-- Per-node scalar fields of the tree-level layer model: the flags of lines
218-243, the mesh material opacity and visibility of `transitionVisibility`
(lines 91-105), whether the node still has a THREE parent (`attached`),
whether its observers are still connected (`dispose`, lines 557-561), and the
ids of the cached state textures it owns. -/
structure WLData where
  id : ℕ
  needsRasterize : Bool
  needsRemoval : Bool
  opacity : ℚ
  contentTargetOpacity : ℚ
  visible : Bool
  attached : Bool
  observersConnected : Bool
  textures : List ℕ
deriving DecidableEq

/-- A layer subtree: one node and its child layers (`childLayers`). -/
inductive WL where
  | node : WLData → List WL → WL

/-- The node's own data. -/
def WL.data : WL → WLData
  | .node d _ => d

/-- The node's child layers. -/
def WL.children : WL → List WL
  | .node _ cs => cs

/- `refresh` (lines 540-555) at the tree level, modelling the
rasterization-flag and queue bookkeeping with the DOM held fixed (the
no-mutation hypothesis of claim C2, under which `_updateChildLayers` neither
adds nor removes children): when `needsRasterize || forceRasterize` the node
clears its flag and pushes its id onto the root queue unless already present
(`indexOf(this) === -1`), then every child layer is refreshed in order.  The
per-layer `_updateState` / `_updateBounds` / `_updateTargetLayout` content is
modelled by `refreshSingle` above and touches neither flag nor queue. -/
mutual
def refreshNode (force : Bool) : WL → List ℕ → WL × List ℕ
  | .node d cs, q =>
    let hit := d.needsRasterize || force
    let q1 := if hit then (if q.contains d.id then q else q ++ [d.id]) else q
    let d1 := if hit then { d with needsRasterize := false } else d
    let r := refreshForest force cs q1
    (.node d1 r.1, r.2)
def refreshForest (force : Bool) : List WL → List ℕ → List WL × List ℕ
  | [], q => ([], q)
  | t :: ts, q =>
    let r1 := refreshNode force t q
    let r2 := refreshForest force ts r1.2
    (r1.1 :: r2.1, r2.2)
end

/- Every layer in the subtree has `needsRasterize = false`. -/
mutual
def allClearNode : WL → Bool
  | .node d cs => !d.needsRasterize && allClearForest cs
def allClearForest : List WL → Bool
  | [] => true
  | t :: ts => allClearNode t && allClearForest ts
end

/- Apply a per-node data transformation to every layer of a subtree (the
shape of `traverseLayers`, lines 471-484). -/
mutual
def mapDataTree (f : WLData → WLData) : WL → WL
  | .node d cs => .node (f d) (mapDataForest f cs)
def mapDataForest (f : WLData → WLData) : List WL → List WL
  | [] => []
  | t :: ts => mapDataTree f t :: mapDataForest f ts
end

/-- `_markForRemoval` (lines 742-747): set `needsRemoval` on the node and,
recursively, on every descendant layer. -/
def markForRemovalTree : WL → WL :=
  mapDataTree (fun d => { d with needsRemoval := true })

/-- The effect of mutation processing on the tree (`setLayerNeedsRasterize`,
lines 307-309, applied through `_processMutations`): set `needsRasterize` on
the layers whose id is in `ds`. -/
def setNRTree (ds : List ℕ) : WL → WL :=
  mapDataTree (fun d => if ds.contains d.id then { d with needsRasterize := true } else d)

/-- The effect of a completed `_rasterize` (lines 776-848) on the tree: the
dequeued layer's cached textures are replaced by the committed ones; no other
flag is touched. -/
def rasterizeTree (i : ℕ) (tex : List ℕ) : WL → WL :=
  mapDataTree (fun d => if d.id = i then { d with textures := tex } else d)

/-- `THREE.Math.lerp` (line 95). -/
def lerpQ (x y a : ℚ) : ℚ := x + (y - x) * a

/-- The hidden test of `transitionVisibility` (line 98) evaluated on the new
opacity: `!material.opacity || material.opacity < 0.005`. -/
def hiddenAfter (a : ℚ) (d : WLData) : Bool :=
  let opacity1 := min (lerpQ d.opacity d.contentTargetOpacity a) 1
  decide (opacity1 = 0) || decide (opacity1 < 5 / 1000)

/-- `transitionVisibility` (lines 91-105) on one node's data: lerp the
material opacity toward `contentTargetOpacity` clamping at 1, hide the mesh
below the threshold, and when the node `needsRemoval` and is hidden complete
its removal: detach it from its parent (`parent.remove(layer)`) and — via
`dispose`, lines 557-561 — disconnect its observers.  `dispose` touches no
cached texture. -/
def transitionVisibilityData (a : ℚ) (d : WLData) : WLData :=
  let opacity1 := min (lerpQ d.opacity d.contentTargetOpacity a) 1
  let isHidden := hiddenAfter a d
  let completed := d.needsRemoval && isHidden
  { d with opacity := opacity1,
           visible := !isHidden,
           attached := if completed then false else d.attached,
           observersConnected := if completed then false else d.observersConnected }

/- The transition pass over a subtree (`traverseLayers(transition, alpha)`,
line 464, with the default `transitionVisibility`): each node gets the scalar
step, and when a node completes its removal, `dispose` recursively
disconnects the observers of its whole subtree (`disposing` carries that
propagation). -/
mutual
def transitionTree (a : ℚ) (disposing : Bool) : WL → WL
  | .node d cs =>
    let d1 := transitionVisibilityData a d
    let completedNow := d.needsRemoval && hiddenAfter a d
    let d2 := if disposing then { d1 with observersConnected := false } else d1
    .node d2 (transitionForest a (disposing || completedNow) cs)
def transitionForest (a : ℚ) (disposing : Bool) : List WL → List WL
  | [] => []
  | t :: ts => transitionTree a disposing t :: transitionForest a disposing ts
end

/-- The operations of the layer lifecycle that claim C3 quantifies over:
refresh passes, the per-frame update transition, marking for removal,
mutation processing, and rasterization completion. -/
inductive LayerOp where
  | refreshOp (force : Bool) (q : List ℕ)
  | transitionOp (a : ℚ)
  | markRemovalOp
  | processMutationsOp (ds : List ℕ)
  | rasterizeOp (i : ℕ) (tex : List ℕ)

/-- Apply a lifecycle operation to a subtree. -/
def applyOp : LayerOp → WL → WL
  | .refreshOp force q, t => (refreshNode force t q).1
  | .transitionOp a, t => transitionTree a false t
  | .markRemovalOp, t => markForRemovalTree t
  | .processMutationsOp ds, t => setNRTree ds t
  | .rasterizeOp i tex, t => rasterizeTree i tex t

/- Pointwise monotonicity of the `needsRemoval` flag between two same-shape
trees: wherever it was true in the first, it is true in the second. -/
mutual
def removalMonoT : WL → WL → Bool
  | .node d1 cs1, .node d2 cs2 =>
    (!d1.needsRemoval || d2.needsRemoval) && removalMonoF cs1 cs2
def removalMonoF : List WL → List WL → Bool
  | [], [] => true
  | t1 :: ts1, t2 :: ts2 => removalMonoT t1 t2 && removalMonoF ts1 ts2
  | _, _ => false
end

/- Every layer of the subtree has `needsRemoval = true`. -/
mutual
def allRemovedT : WL → Bool
  | .node d cs => d.needsRemoval && allRemovedF cs
def allRemovedF : List WL → Bool
  | [] => true
  | t :: ts => allRemovedT t && allRemovedF ts
end

/- Pointwise equality of the `attached` field between two same-shape trees. -/
mutual
def attachedEqT : WL → WL → Bool
  | .node d1 cs1, .node d2 cs2 => (d1.attached == d2.attached) && attachedEqF cs1 cs2
def attachedEqF : List WL → List WL → Bool
  | [], [] => true
  | t1 :: ts1, t2 :: ts2 => attachedEqT t1 t2 && attachedEqF ts1 ts2
  | _, _ => false
end

/- Every layer of the subtree has its observers disconnected. -/
mutual
def observersOffT : WL → Bool
  | .node d cs => !d.observersConnected && observersOffF cs
def observersOffF : List WL → Bool
  | [] => true
  | t :: ts => observersOffT t && observersOffF ts
end

/-- `update` (lines 454-469): clamp the lerp factor at 1, throw unless called
on the root layer (`_checkRoot`, lines 624-626), then refresh the tree and
apply the transition to every layer; rasterization is only scheduled (queue
returned), never executed inside `update`.  The interaction pass touches only
hover/cursor state, which is outside this model. -/
def updateWL (isRoot : Bool) (alpha : ℚ) (t : WL) (q : List ℕ) :
    Except String (WL × List ℕ) :=
  if isRoot then
    let a := min alpha 1
    let r := refreshNode false t q
    Except.ok (transitionTree a false r.1, r.2)
  else Except.error "Only call `update` on a root WebLayer3D instance"

/-- Concrete node data for the removal-completion scenario: marked for
removal, fully faded, still attached, observers connected, owning cached
texture 5. -/
def c8Data : WLData :=
  { id := 0, needsRasterize := false, needsRemoval := true, opacity := 0,
    contentTargetOpacity := 0, visible := false, attached := true,
    observersConnected := true, textures := [5] }

/- ---------------------------------------------------------------------------
   DOM-side model for mutation processing (claims C5 and C6): an element tree
   where some elements are layer roots.
--------------------------------------------------------------------------- -/

/-- One DOM element as `_processMutations` sees it: its id, whether it carries
the layer attribute (and thus owns a layer), that layer's `needsRasterize`
flag, and the keys of its `_states` cache. -/
structure ENodeData where
  eid : ℕ
  isLayer : Bool
  needsRasterize : Bool
  cachedStates : List String
deriving DecidableEq

/-- A DOM subtree. -/
inductive ETree where
  | node : ENodeData → List ETree → ETree

/- `getLayerForElement` (lines 494-499): walk the tree toward the target
element, remembering the nearest layer-carrying ancestor-or-self
(`element.closest('[data-layer]')`); the outer `none` means the target is not
in this subtree, the inner option is the owning layer (id and cache keys). -/
mutual
def closestLayerT (acc : Option (ℕ × List String)) (target : ℕ) :
    ETree → Option (Option (ℕ × List String))
  | .node d cs =>
    let acc1 := if d.isLayer then some (d.eid, d.cachedStates) else acc
    if d.eid = target then some acc1
    else closestLayerF acc1 target cs
def closestLayerF (acc : Option (ℕ × List String)) (target : ℕ) :
    List ETree → Option (Option (ℕ × List String))
  | [] => none
  | t :: ts =>
    match closestLayerT acc target t with
    | some r => some r
    | none => closestLayerF acc target ts
end

/- The subtree rooted at the element `target` (the extent of
`target.contains(...)`). -/
mutual
def subtreeOfT (target : ℕ) : ETree → Option ETree
  | .node d cs => if d.eid = target then some (.node d cs) else subtreeOfF target cs
def subtreeOfF (target : ℕ) : List ETree → Option ETree
  | [] => none
  | t :: ts =>
    match subtreeOfT target t with
    | some r => some r
    | none => subtreeOfF target ts
end

/- The ids of all layer-carrying elements in a subtree. -/
mutual
def layerEidsT : ETree → List ℕ
  | .node d cs => (if d.isLayer then [d.eid] else []) ++ layerEidsF cs
def layerEidsF : List ETree → List ℕ
  | [] => []
  | t :: ts => layerEidsT t ++ layerEidsF ts
end

/- Set `needsRasterize` on every element whose id is in `ds` (the combined
effect of `layer.needsRasterize = true` and
`layer.traverseLayers(setLayerNeedsRasterize)`, lines 350-351, given the
uniqueness invariant of the layer-id attribute). -/
mutual
def setENRT (ds : List ℕ) : ETree → ETree
  | .node d cs =>
    .node (if ds.contains d.eid then { d with needsRasterize := true } else d)
      (setENRF ds cs)
def setENRF (ds : List ℕ) : List ETree → List ETree
  | [] => []
  | t :: ts => setENRT ds t :: setENRF ds ts
end

/- Every element whose id is in `ds` has `needsRasterize = true`. -/
mutual
def allMarkedT (ds : List ℕ) : ETree → Bool
  | .node d cs =>
    (if ds.contains d.eid then d.needsRasterize else true) && allMarkedF ds cs
def allMarkedF (ds : List ℕ) : List ETree → Bool
  | [] => true
  | t :: ts => allMarkedT ds t && allMarkedF ds ts
end

/-- A delivered `class`-attribute mutation record: the target element, the
`oldValue` class list and the element's live (current) class list. -/
structure ClassRecord where
  target : ℕ
  oldClasses : List String
  newClasses : List String

/-- `_processMutations` (lines 310-352) for one `class`-attribute record:
resolve the owning layer of the target element (skip when there is none),
skip when the live attribute value equals `record.oldValue`, dirty only when
some added or removed class is neither `"hover"` nor a cached state key of
the owning layer, and then set `needsRasterize` on the owning layer and on
every layer whose element the mutated element contains. -/
def processClassRecord (root : ETree) (r : ClassRecord) : ETree :=
  match closestLayerT none r.target root with
  | none => root
  | some none => root
  | some (some (lid, cached)) =>
    if r.newClasses = r.oldClasses then root
    else
      let addedClasses := arraySubtract r.newClasses r.oldClasses
      let removedClasses := arraySubtract r.oldClasses r.newClasses
      let dirty := (removedClasses ++ addedClasses).any
        (fun c => ¬ (c = "hover" ∨ cached.contains c = true))
      if dirty then
        let ds := lid :: (match subtreeOfT r.target root with
          | some st => layerEidsT st
          | none => [])
        setENRT ds root
      else root

/-- `_processMutations`' entry (lines 310-312): while the root's `_isUpdating`
guard is set the delivered records are not processed at all; otherwise each
record is processed in delivery order. -/
def processMutations (isUpdating : Bool) (records : List ClassRecord)
    (root : ETree) : ETree :=
  if isUpdating then root
  else records.foldl processClassRecord root

/-- A concrete three-element DOM: a root layer element (id 0, cached states
`"a"` and the default), containing a plain element (id 1) that contains a
nested layer element (id 2). -/
def c6Root : ETree :=
  ETree.node ⟨0, true, false, ["a", ""]⟩
    [ETree.node ⟨1, false, false, []⟩ [ETree.node ⟨2, true, false, [""]⟩ []]]

/-- The subtree of `c6Root` rooted at the plain element (id 1). -/
def c6Sub : ETree :=
  ETree.node ⟨1, false, false, []⟩ [ETree.node ⟨2, true, false, [""]⟩ []]

/- ---------------------------------------------------------------------------
   Supporting lemmas about the `_states` cache operations.
--------------------------------------------------------------------------- -/

theorem findState_nil (s : String) : findState [] s = none := rfl

theorem findState_cons (k0 : String) (v0 : List SlotData)
    (rest : List (String × List SlotData)) (s : String) :
    findState ((k0, v0) :: rest) s = if k0 = s then some v0 else findState rest s := rfl

theorem findState_mem {st : List (String × List SlotData)} {k : String}
    {v : List SlotData} (h : findState st k = some v) : (k, v) ∈ st := by
  induction st with
  | nil => exact Option.noConfusion h
  | cons kv rest ih =>
    obtain ⟨k0, v0⟩ := kv
    rw [findState_cons] at h
    by_cases hk : k0 = k
    · subst hk
      rw [if_pos rfl] at h
      injection h with h2
      subst h2
      exact List.mem_cons_self _ _
    · rw [if_neg hk] at h
      exact List.mem_cons_of_mem _ (ih h)

theorem findState_append_left {a b : List (String × List SlotData)} {k : String}
    (h : (findState a k).isSome) : findState (a ++ b) k = findState a k := by
  induction a with
  | nil => rw [findState_nil] at h; exact Bool.noConfusion h
  | cons kv rest ih =>
    obtain ⟨k0, v0⟩ := kv
    rw [List.cons_append, findState_cons, findState_cons]
    by_cases hk : k0 = k
    · rw [if_pos hk, if_pos hk]
    · rw [findState_cons, if_neg hk] at h
      rw [if_neg hk, if_neg hk]
      exact ih h

theorem findState_append_right {a b : List (String × List SlotData)} {k : String}
    (h : findState a k = none) : findState (a ++ b) k = findState b k := by
  induction a with
  | nil => rw [List.nil_append]
  | cons kv rest ih =>
    obtain ⟨k0, v0⟩ := kv
    rw [findState_cons] at h
    rw [List.cons_append, findState_cons]
    by_cases hk : k0 = k
    · rw [if_pos hk] at h
      exact Option.noConfusion h
    · rw [if_neg hk] at h
      rw [if_neg hk]
      exact ih h

theorem findState_fill_of_isSome {rep : List SlotData} {keys : List String}
    {acc : List (String × List SlotData)} {k : String}
    (h : (findState acc k).isSome) :
    findState (fillStates rep acc keys) k = findState acc k := by
  induction keys generalizing acc with
  | nil => rfl
  | cons k0 rest ih =>
    show findState (fillStates rep (if (findState acc k0).isSome then acc
      else acc ++ [(k0, rep)]) rest) k = findState acc k
    by_cases h0 : (findState acc k0).isSome
    · rw [if_pos h0]
      exact ih h
    · rw [if_neg h0]
      rw [ih (by rw [findState_append_left h]; exact h), findState_append_left h]

theorem findState_fill_mem {rep : List SlotData} {keys : List String}
    {acc : List (String × List SlotData)} {k : String} (h : k ∈ keys) :
    (findState (fillStates rep acc keys) k).isSome := by
  induction keys generalizing acc with
  | nil => exact absurd h (List.not_mem_nil k)
  | cons k0 rest ih =>
    show (findState (fillStates rep (if (findState acc k0).isSome then acc
      else acc ++ [(k0, rep)]) rest) k).isSome
    rcases List.mem_cons.mp h with h | h
    · subst h
      by_cases h0 : (findState acc k).isSome
      · rw [if_pos h0, findState_fill_of_isSome h0]
        exact h0
      · rw [if_neg h0]
        have hk : (findState (acc ++ [(k, rep)]) k).isSome := by
          rw [findState_append_right (Option.not_isSome_iff_eq_none.mp h0),
            findState_cons, if_pos rfl]
          rfl
        rw [findState_fill_of_isSome hk]
        exact hk
    · by_cases h0 : (findState acc k0).isSome
      · rw [if_pos h0]; exact ih h
      · rw [if_neg h0]; exact ih h

theorem mem_fillStates {rep : List SlotData} {keys : List String}
    {acc : List (String × List SlotData)} {kv : String × List SlotData}
    (h : kv ∈ fillStates rep acc keys) : kv ∈ acc ∨ kv.2 = rep := by
  induction keys generalizing acc with
  | nil => exact Or.inl h
  | cons k0 rest ih =>
    rw [show fillStates rep acc (k0 :: rest) = fillStates rep
      (if (findState acc k0).isSome then acc else acc ++ [(k0, rep)]) rest from rfl] at h
    rcases ih h with h' | h'
    · by_cases h0 : (findState acc k0).isSome
      · rw [if_pos h0] at h'
        exact Or.inl h'
      · rw [if_neg h0] at h'
        rcases List.mem_append.mp h' with h'' | h''
        · exact Or.inl h''
        · right
          rw [List.mem_singleton.mp h'']
    · exact Or.inr h'

theorem findState_filter {st : List (String × List SlotData)}
    {p : String × List SlotData → Bool} {k : String}
    (hp : ∀ v, p (k, v) = true) :
    findState (st.filter p) k = findState st k := by
  induction st with
  | nil => rfl
  | cons kv rest ih =>
    obtain ⟨k0, v0⟩ := kv
    rw [List.filter_cons]
    by_cases hk : k0 = k
    · subst hk
      rw [if_pos (hp v0), findState_cons, findState_cons, if_pos rfl, if_pos rfl]
    · by_cases hpv : p (k0, v0) = true
      · rw [if_pos hpv, findState_cons, findState_cons, if_neg hk, if_neg hk]
        exact ih
      · rw [if_neg hpv, findState_cons, if_neg hk]
        exact ih

theorem findState_writeStateSlots {st : List (String × List SlotData)} {K : String}
    {g : List SlotData → List SlotData} {k : String} :
    findState (writeStateSlots K g st) k =
      if k = K then (findState st k).map g else findState st k := by
  induction st with
  | nil => by_cases hk : k = K <;> simp [writeStateSlots, findState_nil, hk]
  | cons kv rest ih =>
    obtain ⟨k0, v0⟩ := kv
    by_cases h0 : k0 = K <;> by_cases hk : k0 = k
    · subst h0; subst hk
      simp [writeStateSlots, findState_cons]
    · subst h0
      simp [writeStateSlots, findState_cons, hk, Ne.symm hk, ih]
    · subst hk
      simp [writeStateSlots, findState_cons, h0, ih]
    · simp [writeStateSlots, findState_cons, h0, hk, ih]

/- ---------------------------------------------------------------------------
   Facts about `_updateState`: it preserves the scalar layer fields, keeps every
   cached entry nonempty, always caches the default state, and leaves the entry
   of a still-declared cached state untouched.
--------------------------------------------------------------------------- -/

theorem updateState_scalars (l : SLayer) :
    (updateState l).classes = l.classes ∧
    (updateState l).declaredStates = l.declaredStates ∧
    (updateState l).hoverDepth = l.hoverDepth ∧
    (updateState l).hover = l.hover ∧
    (updateState l).needsRasterize = l.needsRasterize ∧
    (updateState l).needsRemoval = l.needsRemoval ∧
    (updateState l).useDOMLayout = l.useDOMLayout ∧
    (updateState l).level = l.level ∧
    (updateState l).layerSeparationOpt = l.layerSeparationOpt ∧
    (updateState l).parentBounds = l.parentBounds := by
  unfold updateState
  exact ⟨rfl, rfl, rfl, rfl, rfl, rfl, rfl, rfl, rfl, rfl⟩

theorem wfSlots_updateState {l : SLayer} (h : wfSlots l) : wfSlots (updateState l) := by
  intro kv hkv
  unfold updateState at hkv
  rcases mem_fillStates hkv with h' | h'
  · exact h kv (List.mem_of_mem_filter h')
  · rw [h']
    simp

theorem updateState_default_isSome (l : SLayer) :
    (findState (updateState l).states "").isSome := by
  unfold updateState
  exact findState_fill_mem (by simp)

theorem updateState_find_of_declared {l : SLayer} {s : String}
    (hs : s ∈ l.declaredStates) (hne : s ≠ "")
    (hc : (findState l.states s).isSome) :
    findState (updateState l).states s = findState l.states s := by
  unfold updateState
  have hmem : s ∈ l.declaredStates.filter (fun x => x ≠ "") ++ [""] := by
    refine List.mem_append_left _ ?_
    exact List.mem_filter.mpr ⟨hs, by simp [hne]⟩
  have hfilter : findState (l.states.filter
      (fun kv => (l.declaredStates.filter (fun x => x ≠ "") ++ [""]).contains kv.1)) s =
      findState l.states s := by
    exact findState_filter (fun v => List.elem_eq_true_of_mem hmem)
  rw [findState_fill_of_isSome (by rw [hfilter]; exact hc), hfilter]

theorem updateState_state_of_singleton {l : SLayer} {s : String}
    (hcl : l.classes = [s]) (hs : s ∈ l.declaredStates) (hne : s ≠ "") :
    (updateState l).state = s := by
  unfold updateState
  have hmem : s ∈ l.declaredStates.filter (fun x => x ≠ "") ++ [""] :=
    List.mem_append_left _ (List.mem_filter.mpr ⟨hs, by simp [hne]⟩)
  simp [hcl, List.find?, List.elem_eq_true_of_mem hmem]
  rw [if_pos (Or.inl ⟨hs, hne⟩)]

theorem updateState_state_of_nil {l : SLayer}
    (hcl : l.classes = []) : (updateState l).state = "" := by
  unfold updateState
  simp [hcl]

/- ---------------------------------------------------------------------------
   Getter selection: under a well-formed cache the `texture`/`bounds` getters
   always resolve to a slot, and `_updateBounds` writes exactly the slot the
   getters subsequently read.
--------------------------------------------------------------------------- -/

theorem stateSlots_eq_selKey {l : SLayer}
    (hd : (findState l.states "").isSome) :
    findState l.states (selKey l) = some (stateSlots l) := by
  unfold selKey stateSlots
  by_cases hc : (findState l.states l.state).isSome
  · rw [if_pos hc]
    obtain ⟨v, hv⟩ := Option.isSome_iff_exists.mp hc
    rw [hv]
  · rw [if_neg hc]
    obtain ⟨v, hv⟩ := Option.isSome_iff_exists.mp hd
    rw [Option.not_isSome_iff_eq_none.mp hc, hv]
    rfl

theorem stateSlots_ne_nil {l : SLayer} (hw : wfSlots l)
    (hd : (findState l.states "").isSome) : stateSlots l ≠ [] :=
  hw _ (findState_mem (stateSlots_eq_selKey hd))

theorem selIdx_lt {l : SLayer} (hw : wfSlots l)
    (hd : (findState l.states "").isSome) : selIdx l < (stateSlots l).length := by
  unfold selIdx
  by_cases h : ((stateSlots l)[l.hover]?).isSome
  · rw [if_pos h]
    by_contra hc
    push_neg at hc
    rw [List.getElem?_eq_none_iff.mpr hc] at h
    exact Bool.noConfusion h
  · rw [if_neg h]
    exact List.length_pos.mpr (stateSlots_ne_nil hw hd)

theorem selectedSlot_eq_selIdx (l : SLayer) :
    selectedSlot l = (stateSlots l)[selIdx l]? := by
  unfold selectedSlot selIdx
  cases hv : (stateSlots l)[l.hover]? with
  | some v => simp [hv]
  | none => simp [hv]

theorem writeSlotBounds_getElem {slots : List SlotData} {i : ℕ} {b : Bounds}
    (h : i < slots.length) :
    (writeSlotBounds slots i b)[i]? = some { slots[i] with boundsOpt := some b } ∧
    (writeSlotBounds slots i b).length = slots.length := by
  unfold writeSlotBounds
  rw [List.getElem?_eq_getElem h]
  exact ⟨List.getElem?_set_self h, List.length_set _ _ _⟩

theorem updateBounds_scalars (l : SLayer) (b : Bounds) :
    (updateBounds l b).classes = l.classes ∧
    (updateBounds l b).declaredStates = l.declaredStates ∧
    (updateBounds l b).hoverDepth = l.hoverDepth ∧
    (updateBounds l b).hover = l.hover ∧
    (updateBounds l b).state = l.state ∧
    (updateBounds l b).needsRasterize = l.needsRasterize ∧
    (updateBounds l b).needsRemoval = l.needsRemoval ∧
    (updateBounds l b).useDOMLayout = l.useDOMLayout ∧
    (updateBounds l b).level = l.level ∧
    (updateBounds l b).layerSeparationOpt = l.layerSeparationOpt ∧
    (updateBounds l b).parentBounds = l.parentBounds := by
  unfold updateBounds
  exact ⟨rfl, rfl, rfl, rfl, rfl, rfl, rfl, rfl, rfl, rfl, rfl⟩

theorem updateBounds_findState (l : SLayer) (b : Bounds) (k : String) :
    findState (updateBounds l b).states k =
      if k = selKey l then
        (findState l.states k).map (fun v => writeSlotBounds v (selIdx l) b)
      else findState l.states k := by
  unfold updateBounds
  exact findState_writeStateSlots

theorem stateSlots_updateBounds {l : SLayer} (b : Bounds)
    (hd : (findState l.states "").isSome) :
    stateSlots (updateBounds l b) = writeSlotBounds (stateSlots l) (selIdx l) b := by
  have hstate : (updateBounds l b).state = l.state := (updateBounds_scalars l b).2.2.2.2.1
  by_cases hc : (findState l.states l.state).isSome
  · have hkey : selKey l = l.state := by unfold selKey; rw [if_pos hc]
    obtain ⟨v, hv⟩ := Option.isSome_iff_exists.mp hc
    have h1 : findState (updateBounds l b).states l.state =
        some (writeSlotBounds v (selIdx l) b) := by
      rw [updateBounds_findState, if_pos hkey.symm, hv]
      rfl
    unfold stateSlots
    rw [hstate, h1, hv]
  · have hkey : selKey l = "" := by unfold selKey; rw [if_neg hc]
    have hne : ¬ l.state = "" := fun he => hc (he ▸ hd)
    obtain ⟨v, hv⟩ := Option.isSome_iff_exists.mp hd
    have h1 : findState (updateBounds l b).states l.state = none := by
      rw [updateBounds_findState, if_neg (by rw [hkey]; exact hne),
        Option.not_isSome_iff_eq_none.mp hc]
    have h2 : findState (updateBounds l b).states "" =
        some (writeSlotBounds v (selIdx l) b) := by
      rw [updateBounds_findState, if_pos hkey.symm, hv]
      rfl
    unfold stateSlots
    rw [hstate, h1, h2, Option.not_isSome_iff_eq_none.mp hc, hv]
    rfl

theorem boundsGetter_updateBounds {l : SLayer} (hw : wfSlots l)
    (hd : (findState l.states "").isSome) (b : Bounds) :
    boundsGetter (updateBounds l b) = some b := by
  have hlt := selIdx_lt hw hd
  have hslots := stateSlots_updateBounds b hd
  have hhover : (updateBounds l b).hover = l.hover := (updateBounds_scalars l b).2.2.2.1
  obtain ⟨hget, hlen⟩ := writeSlotBounds_getElem (b := b) hlt
  unfold boundsGetter
  rw [selectedSlot_eq_selIdx, hslots]
  have hidx : selIdx (updateBounds l b) = selIdx l := by
    unfold selIdx
    rw [hhover, hslots]
    by_cases hh : ((stateSlots l)[l.hover]?).isSome
    · have hhlt : l.hover < (stateSlots l).length := by
        by_contra hc
        push_neg at hc
        rw [List.getElem?_eq_none_iff.mpr hc] at hh
        exact Bool.noConfusion hh
      have : ((writeSlotBounds (stateSlots l) (selIdx l) b)[l.hover]?).isSome := by
        by_contra hc
        rw [Option.not_isSome_iff_eq_none, List.getElem?_eq_none_iff, hlen] at hc
        exact absurd hhlt (not_lt.mpr hc)
      rw [if_pos this, if_pos hh]
    · have : ((writeSlotBounds (stateSlots l) (selIdx l) b)[l.hover]?) = none := by
        rw [List.getElem?_eq_none_iff, hlen]
        rw [Option.not_isSome_iff_eq_none, List.getElem?_eq_none_iff] at hh
        exact hh
      rw [this, if_neg hh]
      simp
  rw [hidx, hget]
  rfl

/- ---------------------------------------------------------------------------
   `_updateTargetLayout` lemmas.
--------------------------------------------------------------------------- -/

theorem updateTargetLayout_opacity_zero {x : SLayer} {b : Bounds}
    (hb : boundsGetter x = some b) (hz : b.width = 0 ∨ b.height = 0) :
    (updateTargetLayout x).contentTargetOpacity = 0 := by
  have hb0 : boundsGetter (resetTargets x) = some b := hb
  unfold updateTargetLayout updateTargetLayoutBody
  by_cases hrem : (resetTargets x).needsRemoval = true
  · rw [if_pos hrem]
  · rw [if_neg hrem, hb0]
    simp [hz]

theorem updateTargetLayout_position {x : SLayer} {b pb : Bounds}
    (hb : boundsGetter x = some b) (hp : x.parentBounds = some pb)
    (hnr : x.needsRemoval = false) (hdl : x.useDOMLayout = true)
    (hbw : ¬ b.width = 0) (hbh : ¬ b.height = 0) :
    (updateTargetLayout x).targetPosition =
      ⟨DEFAULT_PIXEL_DIMENSIONS * (-pb.width / 2) +
         DEFAULT_PIXEL_DIMENSIONS * ((b.left - pb.left) + b.width / 2),
       DEFAULT_PIXEL_DIMENSIONS * (pb.height / 2) -
         DEFAULT_PIXEL_DIMENSIONS * ((b.top - pb.top) + b.height / 2),
       layerSeparationOf x.layerSeparationOpt * (x.level : ℚ)⟩ := by
  have hb0 : boundsGetter (resetTargets x) = some b := hb
  unfold updateTargetLayout updateTargetLayoutBody
  rw [if_neg (by simp [resetTargets, hnr]), hb0]
  simp [resetTargets, hbw, hbh, hdl, hp]

/- ---------------------------------------------------------------------------
   Refresh-level corollaries feeding claims C1 and C4.
--------------------------------------------------------------------------- -/

theorem refreshSingle_opacity_zero {l : SLayer} {b : Bounds} (force : Bool)
    (hw : wfSlots l) (hz : b.width = 0 ∨ b.height = 0) :
    ((refreshSingle l b force).1).contentTargetOpacity = 0 := by
  simp only [refreshSingle]
  have hb2 : boundsGetter (updateBounds (updateState l) b) = some b :=
    boundsGetter_updateBounds (wfSlots_updateState hw) (updateState_default_isSome l) b
  by_cases hc : ((updateBounds (updateState l) b).needsRasterize || force) = true
  · rw [if_pos hc]
    exact updateTargetLayout_opacity_zero
      (x := { updateBounds (updateState l) b with needsRasterize := false }) hb2 hz
  · rw [if_neg hc]
    exact updateTargetLayout_opacity_zero hb2 hz

theorem refreshSingle_position {l : SLayer} {b pb : Bounds} (force : Bool)
    (hw : wfSlots l) (hp : l.parentBounds = some pb) (hnr : l.needsRemoval = false)
    (hdl : l.useDOMLayout = true) (hbw : ¬ b.width = 0) (hbh : ¬ b.height = 0) :
    ((refreshSingle l b force).1).targetPosition =
      ⟨DEFAULT_PIXEL_DIMENSIONS * (-pb.width / 2) +
         DEFAULT_PIXEL_DIMENSIONS * ((b.left - pb.left) + b.width / 2),
       DEFAULT_PIXEL_DIMENSIONS * (pb.height / 2) -
         DEFAULT_PIXEL_DIMENSIONS * ((b.top - pb.top) + b.height / 2),
       layerSeparationOf l.layerSeparationOpt * (l.level : ℚ)⟩ := by
  simp only [refreshSingle]
  have hb2 : boundsGetter (updateBounds (updateState l) b) = some b :=
    boundsGetter_updateBounds (wfSlots_updateState hw) (updateState_default_isSome l) b
  by_cases hc : ((updateBounds (updateState l) b).needsRasterize || force) = true
  · rw [if_pos hc]
    exact updateTargetLayout_position
      (x := { updateBounds (updateState l) b with needsRasterize := false })
      hb2 hp hnr hdl hbw hbh
  · rw [if_neg hc]
    exact updateTargetLayout_position hb2 hp hnr hdl hbw hbh

/-- Claim C4: a layer whose element has zero rendered width or height has
`contentTargetOpacity = 0` after a refresh pass, whatever its current state
(the check reads the getter-selected bounds just rewritten by
`_updateBounds`), and `_rasterize` skips a zero-size state × hover
configuration — the slot keeps its previous texture and bounds, nothing is
committed, and no error is raised. -/
theorem C4_zero_bounds_invisible (l : SLayer) (b : Bounds) (force : Bool)
    (hw : wfSlots l) (hz : b.width = 0 ∨ b.height = 0) :
    ((refreshSingle l b force).1).contentTargetOpacity = 0 ∧
    ∀ sd fresh, rasterizeSlot sd b fresh = sd := by
  refine ⟨refreshSingle_opacity_zero force hw hz, fun sd fresh => ?_⟩
  unfold rasterizeSlot
  rw [if_pos hz]

/-- Witness for `C4_zero_bounds_invisible`: the `"near"`-state layer with a
zero-width element. -/
theorem C4_witness :
    wfSlots nearLayer ∧
    ((⟨1, 2, 0, 5⟩ : Bounds).width = 0 ∨ (⟨1, 2, 0, 5⟩ : Bounds).height = 0) ∧
    (((refreshSingle nearLayer ⟨1, 2, 0, 5⟩ false).1).contentTargetOpacity = 0 ∧
      ∀ sd fresh, rasterizeSlot sd ⟨1, 2, 0, 5⟩ fresh = sd) :=
  ⟨by decide, Or.inl rfl,
    C4_zero_bounds_invisible nearLayer ⟨1, 2, 0, 5⟩ false (by decide) (Or.inl rfl)⟩

/-- Claim C1 counterexample: at the scenario-2 input (parent bounds left 20 /
top 10 with zero size, child bounds (40, 30, 100 × 50), level 1) the
refreshed target X is 0.001·((40 − 20) + 100/2 − 0/2) = 0.07, not the bare
scaled delta 0.001·(40 − 20) = 0.02: `_updateTargetLayout` centres the child
box and offsets by the parent origin, so the position does not equal the
delta scaled by the pixel-size constant. -/
theorem C1_counterexample :
    ((refreshSingle c1Child ⟨40, 30, 100, 50⟩ false).1).targetPosition.x ≠
      DEFAULT_PIXEL_DIMENSIONS * (40 - 20) := by
  have h := @refreshSingle_position c1Child ⟨40, 30, 100, 50⟩ ⟨20, 10, 0, 0⟩
    false (by decide) rfl rfl rfl (by norm_num) (by norm_num)
  rw [h]
  norm_num [DEFAULT_PIXEL_DIMENSIONS]

/-- Claim C1 (amended): after refresh, a DOM-layout layer that is not marked
for removal and has nonzero-size bounds gets target position
x = pixelSize·((childLeft − parentLeft) + childWidth/2 − parentWidth/2),
y = pixelSize·(parentHeight/2 − (childTop − parentTop) − childHeight/2),
z = layerSeparation·level (defaults 0.001 and 0.005 world units); X and Y
depend on the absolute coordinates only through the parent-relative deltas
and the two box sizes, witnessed by invariance under translating both
bounding boxes by the same offset. -/
theorem C1_target_layout (l : SLayer) (b pb : Bounds) (force : Bool) (dx dy : ℚ)
    (hw : wfSlots l) (hp : l.parentBounds = some pb) (hnr : l.needsRemoval = false)
    (hdl : l.useDOMLayout = true) (hbw : ¬ b.width = 0) (hbh : ¬ b.height = 0) :
    ((refreshSingle l b force).1).targetPosition =
      ⟨DEFAULT_PIXEL_DIMENSIONS * ((b.left - pb.left) + b.width / 2 - pb.width / 2),
       DEFAULT_PIXEL_DIMENSIONS * (pb.height / 2 - (b.top - pb.top) - b.height / 2),
       layerSeparationOf l.layerSeparationOpt * (l.level : ℚ)⟩ ∧
    ((refreshSingle { l with parentBounds := some (shiftBounds pb dx dy) }
        (shiftBounds b dx dy) force).1).targetPosition =
      ((refreshSingle l b force).1).targetPosition := by
  have h1 := refreshSingle_position force hw hp hnr hdl hbw hbh
  constructor
  · rw [h1]
    simp only [Vec3.mk.injEq]
    exact ⟨by ring, by ring, trivial⟩
  · have hw2 : wfSlots { l with parentBounds := some (shiftBounds pb dx dy) } := hw
    have h2 := @refreshSingle_position { l with parentBounds := some (shiftBounds pb dx dy) }
      (shiftBounds b dx dy) (shiftBounds pb dx dy) force hw2 rfl hnr hdl hbw hbh
    rw [h1, h2]
    simp only [Vec3.mk.injEq, shiftBounds]
    exact ⟨by ring, by ring, trivial⟩

/-- Witness for `C1_target_layout`: the scenario-2 input, translated by
(5, 7) for the invariance part. -/
theorem C1_witness :
    wfSlots c1Child ∧ c1Child.parentBounds = some ⟨20, 10, 0, 0⟩ ∧
    c1Child.needsRemoval = false ∧ c1Child.useDOMLayout = true ∧
    ¬ (⟨40, 30, 100, 50⟩ : Bounds).width = 0 ∧
    ¬ (⟨40, 30, 100, 50⟩ : Bounds).height = 0 ∧
    (((refreshSingle c1Child ⟨40, 30, 100, 50⟩ false).1).targetPosition =
        ⟨DEFAULT_PIXEL_DIMENSIONS * ((40 - 20) + 100 / 2 - 0 / 2),
         DEFAULT_PIXEL_DIMENSIONS * (0 / 2 - (30 - 10) - 50 / 2),
         layerSeparationOf none * ((1 : ℕ) : ℚ)⟩ ∧
      ((refreshSingle { c1Child with parentBounds := some (shiftBounds ⟨20, 10, 0, 0⟩ 5 7) }
          (shiftBounds ⟨40, 30, 100, 50⟩ 5 7) false).1).targetPosition =
        ((refreshSingle c1Child ⟨40, 30, 100, 50⟩ false).1).targetPosition) :=
  ⟨by decide, rfl, rfl, rfl, by norm_num, by norm_num,
    C1_target_layout c1Child ⟨40, 30, 100, 50⟩ ⟨20, 10, 0, 0⟩ false 5 7
      (by decide) rfl rfl rfl (by norm_num) (by norm_num)⟩

/- ---------------------------------------------------------------------------
   Claim C10: getter fallback chain.
--------------------------------------------------------------------------- -/

/-- Claim C10: with an initialized state cache (the default state `""` cached
and every cached entry holding at least one slot, as `_updateState`
guarantees), the `texture`/`bounds` getters resolve to the cache entry for the
current state when it exists and otherwise to the default `""` entry, and
within the chosen entry to the slot at the current hover depth when that index
exists and otherwise to slot 0 — in particular they always resolve to some
slot (an undeclared current state or an out-of-range hover depth falls back to
the unhovered default rendering instead of failing). -/
theorem C10_getter_fallback (l : SLayer)
    (hw : wfSlots l) (hd : (findState l.states "").isSome) :
    (∃ sd, selectedSlot l = some sd ∧ textureGetter l = sd.texture ∧
      boundsGetter l = sd.boundsOpt) ∧
    (∀ sl, findState l.states l.state = some sl → stateSlots l = sl) ∧
    (findState l.states l.state = none →
      stateSlots l = (findState l.states "").getD []) ∧
    (((stateSlots l)[l.hover]?).isSome → selectedSlot l = (stateSlots l)[l.hover]?) ∧
    ((stateSlots l)[l.hover]? = none → selectedSlot l = (stateSlots l)[0]?) := by
  refine ⟨?_, ?_, ?_, ?_, ?_⟩
  · have hlt := selIdx_lt hw hd
    have hsome : ((stateSlots l)[selIdx l]?).isSome := by
      rw [List.getElem?_eq_getElem hlt]
      rfl
    obtain ⟨sd, hsd⟩ := Option.isSome_iff_exists.mp hsome
    rw [← selectedSlot_eq_selIdx] at hsd
    refine ⟨sd, hsd, ?_, ?_⟩
    · unfold textureGetter
      rw [hsd]
      rfl
    · unfold boundsGetter
      rw [hsd]
      rfl
  · intro sl hsl
    unfold stateSlots
    rw [hsl]
  · intro hnone
    unfold stateSlots
    rw [hnone]
  · intro hs
    obtain ⟨v, hv⟩ := Option.isSome_iff_exists.mp hs
    unfold selectedSlot
    rw [hv]
  · intro hnone
    unfold selectedSlot
    rw [hnone]

/-- Witness for `C10_getter_fallback` at the concrete `"near"`-state layer. -/
theorem C10_witness :
    wfSlots nearLayer ∧ (findState nearLayer.states "").isSome ∧
    ((∃ sd, selectedSlot nearLayer = some sd ∧
        textureGetter nearLayer = sd.texture ∧
        boundsGetter nearLayer = sd.boundsOpt) ∧
      (∀ sl, findState nearLayer.states nearLayer.state = some sl →
        stateSlots nearLayer = sl) ∧
      (findState nearLayer.states nearLayer.state = none →
        stateSlots nearLayer = (findState nearLayer.states "").getD []) ∧
      (((stateSlots nearLayer)[nearLayer.hover]?).isSome →
        selectedSlot nearLayer = (stateSlots nearLayer)[nearLayer.hover]?) ∧
      ((stateSlots nearLayer)[nearLayer.hover]? = none →
        selectedSlot nearLayer = (stateSlots nearLayer)[0]?)) :=
  ⟨by decide, by decide, C10_getter_fallback nearLayer (by decide) (by decide)⟩

/- ---------------------------------------------------------------------------
   Claim C7: the state round-trip.  Supporting lemmas first.
--------------------------------------------------------------------------- -/

theorem getElem?_lt {α : Type} {xs : List α} {i : ℕ} {x : α}
    (h : xs[i]? = some x) : i < xs.length := by
  by_contra hc
  push_neg at hc
  rw [List.getElem?_eq_none_iff.mpr hc] at h
  exact Option.noConfusion h

theorem processOwnClassMutation_self (x : SLayer) (c : List String) :
    processOwnClassMutation x c c = x := by
  unfold processOwnClassMutation
  rw [if_pos rfl]

theorem processOwnClassMutation_noDirty {l : SLayer} {oldCs newCs : List String}
    (h : ∀ c ∈ arraySubtract oldCs newCs ++ arraySubtract newCs oldCs,
      c = "hover" ∨ (findState l.states c).isSome) :
    processOwnClassMutation l oldCs newCs = l := by
  simp only [processOwnClassMutation]
  by_cases he : newCs = oldCs
  · rw [if_pos he]
  · rw [if_neg he]
    split
    · rename_i hany
      rw [List.any_eq_true] at hany
      obtain ⟨c, hc, hdec⟩ := hany
      rw [decide_eq_true_eq] at hdec
      exact absurd (h c hc) hdec
    · rfl

theorem writeSlotBounds_ne_nil {v : List SlotData} {i : ℕ} {b : Bounds}
    (h : v ≠ []) : writeSlotBounds v i b ≠ [] := by
  unfold writeSlotBounds
  cases hv : v[i]? with
  | some sd =>
    intro hc
    apply h
    have hlen := congrArg List.length hc
    rw [List.length_set] at hlen
    exact List.length_eq_zero.mp hlen
  | none => exact h

theorem writeStateSlots_preserves_ne_nil {K : String}
    {g : List SlotData → List SlotData} (hg : ∀ v, v ≠ [] → g v ≠ [])
    {st : List (String × List SlotData)}
    (hst : ∀ kv ∈ st, kv.2 ≠ ([] : List SlotData)) :
    ∀ kv ∈ writeStateSlots K g st, kv.2 ≠ ([] : List SlotData) := by
  induction st with
  | nil => intro kv hkv; exact absurd hkv (List.not_mem_nil kv)
  | cons kv0 rest ih =>
    obtain ⟨k0, v0⟩ := kv0
    intro kv hkv
    rw [writeStateSlots] at hkv
    rcases List.mem_cons.mp hkv with h' | h'
    · have hv0 : v0 ≠ [] := hst (k0, v0) (List.mem_cons_self _ _)
      by_cases h0 : k0 = K
      · rw [if_pos h0] at h'
        rw [h']
        exact hg v0 hv0
      · rw [if_neg h0] at h'
        rw [h']
        exact hv0
    · exact ih (fun kv hkv => hst kv (List.mem_cons_of_mem _ hkv)) kv h'

theorem wfSlots_updateBounds {l : SLayer} (hw : wfSlots l) (b : Bounds) :
    wfSlots (updateBounds l b) := by
  intro kv hkv
  exact writeStateSlots_preserves_ne_nil
    (fun v hv => writeSlotBounds_ne_nil hv) hw kv hkv

theorem updateTargetLayout_shape (x : SLayer) :
    ∃ o p c lp lc, updateTargetLayout x =
      { x with contentTargetOpacity := o, targetPosition := p, contentScale := c,
               lastTargetPosition := lp, lastContentScale := lc } := by
  unfold updateTargetLayout updateTargetLayoutBody resetTargets
  split
  · exact ⟨0, _, _, _, _, rfl⟩
  · split
    · split
      · exact ⟨0, _, _, _, _, rfl⟩
      · exact ⟨1, _, _, _, _, rfl⟩
    · exact ⟨1, _, _, _, _, rfl⟩

/-- One `refresh(false)` pass over a clean (`needsRasterize = false`) layer
whose live class list is the single declared state `s`: the pass selects state
`s`, pushes nothing onto the rasterization queue, rewrites only the bounds of
slot 0 of the `s` entry, and leaves every other cache field alone. -/
theorem refresh_cache_current {l : SLayer} {s : String} {sl : List SlotData}
    {d : SlotData} (b : Bounds)
    (hw : wfSlots l) (hcl : l.classes = [s]) (hs : s ∈ l.declaredStates)
    (hne : s ≠ "") (hc : findState l.states s = some sl) (h0 : sl[0]? = some d)
    (hh : l.hover = 0) (hnr : l.needsRasterize = false) :
    ∃ x, refreshSingle l b false = (x, false) ∧
      x.state = s ∧ x.classes = [s] ∧ x.declaredStates = l.declaredStates ∧
      x.hover = 0 ∧ x.hoverDepth = l.hoverDepth ∧ x.needsRasterize = false ∧
      findState x.states s = some (sl.set 0 { d with boundsOpt := some b }) ∧
      wfSlots x := by
  have hnr2 : (updateBounds (updateState l) b).needsRasterize = false := hnr
  obtain ⟨o, p, c, lp, lc, hshape⟩ :=
    updateTargetLayout_shape (updateBounds (updateState l) b)
  have hst1 : (updateState l).state = s := updateState_state_of_singleton hcl hs hne
  have hfind1 : findState (updateState l).states s = some sl := by
    rw [updateState_find_of_declared hs hne (by rw [hc]; rfl)]
    exact hc
  have hkey : selKey (updateState l) = s := by
    unfold selKey
    rw [hst1, hfind1]
    rfl
  have hslots1 : stateSlots (updateState l) = sl := by
    unfold stateSlots
    rw [hst1, hfind1]
  have hh1 : (updateState l).hover = 0 := hh
  have hidx : selIdx (updateState l) = 0 := by
    unfold selIdx
    rw [hh1, hslots1, h0]
    rfl
  have hfind2 : findState (updateBounds (updateState l) b).states s =
      some (sl.set 0 { d with boundsOpt := some b }) := by
    rw [updateBounds_findState, if_pos hkey.symm, hfind1, hidx]
    show some (writeSlotBounds sl 0 b) = some (sl.set 0 { d with boundsOpt := some b })
    unfold writeSlotBounds
    rw [h0]
  have hwx : wfSlots (updateBounds (updateState l) b) :=
    wfSlots_updateBounds (wfSlots_updateState hw) b
  refine ⟨updateTargetLayout (updateBounds (updateState l) b),
    ?_, ?_, ?_, ?_, ?_, ?_, ?_, ?_, ?_⟩
  · simp [refreshSingle, hnr2]
  · rw [hshape]
    exact hst1
  · rw [hshape]
    exact hcl
  · rw [hshape]
    rfl
  · rw [hshape]
    exact hh
  · rw [hshape]
    rfl
  · rw [hshape]
    exact hnr
  · rw [hshape]
    exact hfind2
  · rw [hshape]
    exact hwx

/-- One `refresh(false)` pass over a clean layer whose live class list is
empty: the pass selects the default state `""`, pushes nothing onto the
queue, and leaves the cache entry of any declared state `s ≠ ""` untouched. -/
theorem refresh_cache_other {l : SLayer} {s : String} {sl : List SlotData}
    (b : Bounds)
    (hw : wfSlots l) (hcl : l.classes = []) (hs : s ∈ l.declaredStates)
    (hne : s ≠ "") (hc : findState l.states s = some sl)
    (hnr : l.needsRasterize = false) :
    ∃ x, refreshSingle l b false = (x, false) ∧
      x.state = "" ∧ x.classes = [] ∧ x.declaredStates = l.declaredStates ∧
      x.hover = l.hover ∧ x.hoverDepth = l.hoverDepth ∧ x.needsRasterize = false ∧
      findState x.states s = some sl ∧ wfSlots x := by
  have hnr2 : (updateBounds (updateState l) b).needsRasterize = false := hnr
  obtain ⟨o, p, c, lp, lc, hshape⟩ :=
    updateTargetLayout_shape (updateBounds (updateState l) b)
  have hst1 : (updateState l).state = "" := updateState_state_of_nil hcl
  have hfind1 : findState (updateState l).states s = some sl := by
    rw [updateState_find_of_declared hs hne (by rw [hc]; rfl)]
    exact hc
  have hkey : selKey (updateState l) = "" := by
    unfold selKey
    rw [hst1]
    obtain ⟨v, hv⟩ := Option.isSome_iff_exists.mp (updateState_default_isSome l)
    rw [hv]
    rfl
  have hfind2 : findState (updateBounds (updateState l) b).states s = some sl := by
    rw [updateBounds_findState, if_neg (by rw [hkey]; exact hne), hfind1]
  have hwx : wfSlots (updateBounds (updateState l) b) :=
    wfSlots_updateBounds (wfSlots_updateState hw) b
  refine ⟨updateTargetLayout (updateBounds (updateState l) b),
    ?_, ?_, ?_, ?_, ?_, ?_, ?_, ?_, ?_⟩
  · simp [refreshSingle, hnr2]
  · rw [hshape]
    exact hst1
  · rw [hshape]
    exact hcl
  · rw [hshape]
    rfl
  · rw [hshape]
    rfl
  · rw [hshape]
    rfl
  · rw [hshape]
    exact hnr
  · rw [hshape]
    exact hfind2
  · rw [hshape]
    exact hwx

theorem textureGetter_of {x : SLayer} {s : String} {sl2 : List SlotData}
    {d2 : SlotData} (hst : x.state = s) (hf : findState x.states s = some sl2)
    (hh : x.hover = 0) (h0 : sl2[0]? = some d2) : textureGetter x = d2.texture := by
  unfold textureGetter selectedSlot stateSlots
  rw [hst, hf, hh, h0]
  rfl

/-- Claim C7: for a layer with a declared state `s` whose cache slot 0 already
holds a rasterized texture `T` and whose live class list currently is `[s]`:
switching the class list to `[s]` (a no-op record), then to `[]` (the default
state), then back to `[s]`, delivering the class mutation record and running
`refresh(false)` after each switch, never sets `needsRasterize`, never runs
the enqueue branch of `refresh`, and afterwards the `texture` getter again
returns the same cached texture `T` for `s` — no new rasterization happens. -/
theorem C7_state_round_trip (l : SLayer) (s : String) (b : Bounds) (T : ℕ)
    (sl : List SlotData) (d : SlotData)
    (hw : wfSlots l) (hcl : l.classes = [s]) (hs : s ∈ l.declaredStates)
    (hne : s ≠ "") (hc : findState l.states s = some sl) (h0 : sl[0]? = some d)
    (hT : d.texture = some T) (hh : l.hover = 0) (hnr : l.needsRasterize = false) :
    ∃ lf, roundTripC7 l s b = (lf, (false, false, false)) ∧
      lf.needsRasterize = false ∧ textureGetter lf = some T := by
  have hlt0 : 0 < sl.length := getElem?_lt h0
  -- First switch: class list set to [s]; the record is a no-op (new = old).
  obtain ⟨x1, hr1, hx1st, hx1cl, hx1ds, hx1h, hx1hd, hx1nr, hx1f, hx1w⟩ :=
    refresh_cache_current (l := setClasses l [s]) b hw rfl hs hne hc h0 hh hnr
  have hstep1 : classSwitchStep l [s] b = (x1, false) := by
    simp only [classSwitchStep]
    rw [hcl, processOwnClassMutation_self]
    exact hr1
  have hds1 : x1.declaredStates = l.declaredStates := hx1ds
  -- Second switch: class list cleared; removing `s` is not dirtying because
  -- `s` is a cached state key.
  have hpm2 : processOwnClassMutation (setClasses x1 []) [s] [] = setClasses x1 [] := by
    refine processOwnClassMutation_noDirty (fun c hc2 => ?_)
    have hcs : c = s := by
      simp [arraySubtract] at hc2
      exact hc2
    subst hcs
    right
    show (findState x1.states c).isSome
    rw [hx1f]
    rfl
  have hstep2 : classSwitchStep x1 [] b = refreshSingle (setClasses x1 []) b false := by
    simp only [classSwitchStep]
    rw [hx1cl, hpm2]
  obtain ⟨x2, hr2, hx2st, hx2cl, hx2ds, hx2h, hx2hd, hx2nr, hx2f, hx2w⟩ :=
    refresh_cache_other (l := setClasses x1 []) (s := s) b hx1w rfl
      (by show s ∈ x1.declaredStates; rw [hds1]; exact hs) hne hx1f hx1nr
  have hcs2 : classSwitchStep x1 [] b = (x2, false) := hstep2.trans hr2
  have hds2 : x2.declaredStates = x1.declaredStates := hx2ds
  have hh2 : x2.hover = x1.hover := hx2h
  -- Third switch: class list set back to [s]; adding the cached state `s` is
  -- not dirtying either.
  have hpm3 : processOwnClassMutation (setClasses x2 [s]) [] [s] = setClasses x2 [s] := by
    refine processOwnClassMutation_noDirty (fun c hc3 => ?_)
    have hcs : c = s := by
      simp [arraySubtract] at hc3
      exact hc3
    subst hcs
    right
    show (findState x2.states c).isSome
    rw [hx2f]
    rfl
  have hstep3 : classSwitchStep x2 [s] b = refreshSingle (setClasses x2 [s]) b false := by
    simp only [classSwitchStep]
    rw [hx2cl, hpm3]
  have h01 : (sl.set 0 { d with boundsOpt := some b })[0]? =
      some { d with boundsOpt := some b } :=
    List.getElem?_set_self hlt0
  obtain ⟨x3, hr3, hx3st, hx3cl, hx3ds, hx3h, hx3hd, hx3nr, hx3f, hx3w⟩ :=
    refresh_cache_current (l := setClasses x2 [s]) b hx2w rfl
      (by show s ∈ x2.declaredStates; rw [hds2, hds1]; exact hs) hne hx2f h01
      (by show x2.hover = 0; rw [hh2]; exact hx1h) hx2nr
  have hcs3 : classSwitchStep x2 [s] b = (x3, false) := hstep3.trans hr3
  -- Assemble the round trip.
  have ha1 : (classSwitchStep l [s] b).1 = x1 := by rw [hstep1]
  have hb1 : (classSwitchStep l [s] b).2 = false := by rw [hstep1]
  have ha2 : (classSwitchStep x1 [] b).1 = x2 := by rw [hcs2]
  have hb2 : (classSwitchStep x1 [] b).2 = false := by rw [hcs2]
  have ha3 : (classSwitchStep x2 [s] b).1 = x3 := by rw [hcs3]
  have hb3 : (classSwitchStep x2 [s] b).2 = false := by rw [hcs3]
  refine ⟨x3, ?_, hx3nr, ?_⟩
  · simp only [roundTripC7, ha1, hb1, ha2, hb2, ha3, hb3]
  · have hfin := textureGetter_of hx3st hx3f hx3h
      (List.getElem?_set_self (by rw [List.length_set]; exact hlt0))
    rw [hfin]
    exact hT

/-- Witness for `C7_state_round_trip` at the concrete `"near"`-state layer. -/
theorem C7_witness :
    wfSlots nearLayer ∧ nearLayer.classes = ["near"] ∧
    "near" ∈ nearLayer.declaredStates ∧ "near" ≠ "" ∧
    findState nearLayer.states "near" = some [⟨some 7, some ⟨0, 0, 5, 5⟩⟩] ∧
    ([(⟨some 7, some ⟨0, 0, 5, 5⟩⟩ : SlotData)])[0]? = some ⟨some 7, some ⟨0, 0, 5, 5⟩⟩ ∧
    (⟨some 7, some ⟨0, 0, 5, 5⟩⟩ : SlotData).texture = some 7 ∧
    nearLayer.hover = 0 ∧ nearLayer.needsRasterize = false ∧
    (∃ lf, roundTripC7 nearLayer "near" ⟨0, 0, 5, 5⟩ = (lf, (false, false, false)) ∧
      lf.needsRasterize = false ∧ textureGetter lf = some 7) :=
  ⟨by decide, rfl, by decide, by decide, by decide, rfl, rfl, rfl, rfl,
    C7_state_round_trip nearLayer "near" ⟨0, 0, 5, 5⟩ 7
      [⟨some 7, some ⟨0, 0, 5, 5⟩⟩] ⟨some 7, some ⟨0, 0, 5, 5⟩⟩
      (by decide) rfl (by decide) (by decide) (by decide) rfl rfl rfl rfl⟩

/- ---------------------------------------------------------------------------
   Claim C2: refresh idempotence at the tree level.
--------------------------------------------------------------------------- -/

mutual
theorem refreshNode_allClear (force : Bool) (t : WL) (q : List ℕ) :
    allClearNode (refreshNode force t q).1 = true := by
  cases t with
  | node d cs =>
    simp only [refreshNode, allClearNode, Bool.and_eq_true]
    constructor
    · by_cases h : (d.needsRasterize || force) = true
      · simp [h]
      · have hdn : d.needsRasterize = false := by
          cases hnr : d.needsRasterize
          · rfl
          · rw [hnr] at h
            simp at h
        have hf : force = false := by
          cases hfc : force
          · rfl
          · rw [hfc] at h
            simp at h
        simp [hdn, hf]
    · exact refreshForest_allClear force cs _
theorem refreshForest_allClear (force : Bool) (ts : List WL) (q : List ℕ) :
    allClearForest (refreshForest force ts q).1 = true := by
  cases ts with
  | nil => rfl
  | cons t ts =>
    simp only [refreshForest, allClearForest, Bool.and_eq_true]
    exact ⟨refreshNode_allClear force t q, refreshForest_allClear force ts _⟩
end

mutual
theorem refreshNode_clean (t : WL) (q : List ℕ) (h : allClearNode t = true) :
    refreshNode false t q = (t, q) := by
  cases t with
  | node d cs =>
    simp only [allClearNode, Bool.and_eq_true] at h
    obtain ⟨hd, hcs⟩ := h
    have hdn : d.needsRasterize = false := by
      cases hnr : d.needsRasterize
      · rfl
      · rw [hnr] at hd
        simp at hd
    simp only [refreshNode, hdn, Bool.or_self, Bool.false_eq_true, if_false,
      refreshForest_clean cs q hcs]
theorem refreshForest_clean (ts : List WL) (q : List ℕ) (h : allClearForest ts = true) :
    refreshForest false ts q = (ts, q) := by
  cases ts with
  | nil => rfl
  | cons t ts =>
    simp only [allClearForest, Bool.and_eq_true] at h
    simp only [refreshForest, refreshNode_clean t q h.1, refreshForest_clean ts q h.2]
end

/-- Claim C2: one `refresh(false)` pass clears every layer's `needsRasterize`
flag, and running `refresh(false)` again over the resulting tree — with no
intervening DOM mutation, resize notification or explicit invalidation to
re-set any flag — is the identity on both the tree and the root's
rasterization queue: the second call adds no queue entry. -/
theorem C2_refresh_idempotent (t : WL) (q : List ℕ) :
    allClearNode (refreshNode false t q).1 = true ∧
    refreshNode false (refreshNode false t q).1 (refreshNode false t q).2 =
      ((refreshNode false t q).1, (refreshNode false t q).2) :=
  ⟨refreshNode_allClear false t q,
    refreshNode_clean _ _ (refreshNode_allClear false t q)⟩

/- ---------------------------------------------------------------------------
   Claim C3: monotonicity of `needsRemoval`.
--------------------------------------------------------------------------- -/

mutual
theorem removalMono_mapData (f : WLData → WLData)
    (hf : ∀ d, d.needsRemoval = true → (f d).needsRemoval = true) (t : WL) :
    removalMonoT t (mapDataTree f t) = true := by
  cases t with
  | node d cs =>
    simp only [mapDataTree, removalMonoT, Bool.and_eq_true]
    refine ⟨?_, removalMono_mapDataF f hf cs⟩
    by_cases hr : d.needsRemoval = true
    · simp [hr, hf d hr]
    · have hr2 : d.needsRemoval = false := by
        cases h2 : d.needsRemoval
        · rfl
        · exact absurd h2 hr
      simp [hr2]
theorem removalMono_mapDataF (f : WLData → WLData)
    (hf : ∀ d, d.needsRemoval = true → (f d).needsRemoval = true) (ts : List WL) :
    removalMonoF ts (mapDataForest f ts) = true := by
  cases ts with
  | nil => rfl
  | cons t ts =>
    simp only [mapDataForest, removalMonoF, Bool.and_eq_true]
    exact ⟨removalMono_mapData f hf t, removalMono_mapDataF f hf ts⟩
end

mutual
theorem removalMono_transition (a : ℚ) (dsp : Bool) (t : WL) :
    removalMonoT t (transitionTree a dsp t) = true := by
  cases t with
  | node d cs =>
    simp only [transitionTree, removalMonoT, Bool.and_eq_true]
    refine ⟨?_, removalMono_transitionF a _ cs⟩
    by_cases hdsp : dsp = true <;> by_cases hr : d.needsRemoval = true <;>
      simp [transitionVisibilityData, hdsp, hr]
theorem removalMono_transitionF (a : ℚ) (dsp : Bool) (ts : List WL) :
    removalMonoF ts (transitionForest a dsp ts) = true := by
  cases ts with
  | nil => rfl
  | cons t ts =>
    simp only [transitionForest, removalMonoF, Bool.and_eq_true]
    exact ⟨removalMono_transition a dsp t, removalMono_transitionF a dsp ts⟩
end

mutual
theorem removalMono_refresh (force : Bool) (t : WL) (q : List ℕ) :
    removalMonoT t ((refreshNode force t q).1) = true := by
  cases t with
  | node d cs =>
    simp only [refreshNode, removalMonoT, Bool.and_eq_true]
    refine ⟨?_, removalMono_refreshF force cs _⟩
    by_cases h : (d.needsRasterize || force) = true <;>
      by_cases hr : d.needsRemoval = true <;> simp [h, hr]
theorem removalMono_refreshF (force : Bool) (ts : List WL) (q : List ℕ) :
    removalMonoF ts ((refreshForest force ts q).1) = true := by
  cases ts with
  | nil => rfl
  | cons t ts =>
    simp only [refreshForest, removalMonoF, Bool.and_eq_true]
    exact ⟨removalMono_refresh force t q, removalMono_refreshF force ts _⟩
end

mutual
theorem allRemoved_markT (t : WL) :
    allRemovedT (mapDataTree (fun d => { d with needsRemoval := true }) t) = true := by
  cases t with
  | node d cs =>
    simp only [mapDataTree, allRemovedT, Bool.and_eq_true]
    exact ⟨by trivial, allRemoved_markF cs⟩
theorem allRemoved_markF (ts : List WL) :
    allRemovedF (mapDataForest (fun d => { d with needsRemoval := true }) ts) = true := by
  cases ts with
  | nil => rfl
  | cons t ts =>
    simp only [mapDataForest, allRemovedF, Bool.and_eq_true]
    exact ⟨allRemoved_markT t, allRemoved_markF ts⟩
end

/-- Claim C3: `needsRemoval` is monotone under every lifecycle operation
(refresh, the update transition, mutation processing, rasterization, and
marking itself) — once true on a layer it stays true; `_markForRemoval` sets
the flag on the layer and on every descendant layer; and a transition step
detaches a layer only when it is marked for removal and its new opacity is
below the hidden threshold. -/
theorem C3_removal_monotonic :
    (∀ (op : LayerOp) (t : WL), removalMonoT t (applyOp op t) = true) ∧
    (∀ t : WL, allRemovedT (markForRemovalTree t) = true) ∧
    (∀ (a : ℚ) (d : WLData), (transitionVisibilityData a d).attached = false →
      d.attached = false ∨ (d.needsRemoval = true ∧ hiddenAfter a d = true)) := by
  refine ⟨?_, ?_, ?_⟩
  · intro op t
    cases op with
    | refreshOp force q => exact removalMono_refresh force t q
    | transitionOp a => exact removalMono_transition a false t
    | markRemovalOp => exact removalMono_mapData _ (fun d _ => rfl) t
    | processMutationsOp ds =>
      refine removalMono_mapData _ (fun d hd => ?_) t
      split
      · exact hd
      · exact hd
    | rasterizeOp i tex =>
      refine removalMono_mapData _ (fun d hd => ?_) t
      split
      · exact hd
      · exact hd
  · intro t
    exact allRemoved_markT t
  · intro a d hdet
    simp only [transitionVisibilityData] at hdet
    by_cases hc : (d.needsRemoval && hiddenAfter a d) = true
    · right
      simp only [Bool.and_eq_true] at hc
      exact hc
    · left
      rw [if_neg hc] at hdet
      exact hdet

/-- Witness for `C3_removal_monotonic`: the faded removal-marked node. -/
theorem C3_witness :
    (transitionVisibilityData 1 c8Data).attached = false ∧
    (c8Data.attached = false ∨
      (c8Data.needsRemoval = true ∧ hiddenAfter 1 c8Data = true)) ∧
    removalMonoT (WL.node c8Data [])
      (applyOp LayerOp.markRemovalOp (WL.node c8Data [])) = true :=
  ⟨by norm_num [transitionVisibilityData, hiddenAfter, lerpQ, c8Data],
    C3_removal_monotonic.2.2 1 c8Data
      (by norm_num [transitionVisibilityData, hiddenAfter, lerpQ, c8Data]),
    C3_removal_monotonic.1 LayerOp.markRemovalOp (WL.node c8Data [])⟩

/- ---------------------------------------------------------------------------
   Claim C9: the root-only contract of `update`.
--------------------------------------------------------------------------- -/

/-- Claim C9: calling `update` on a non-root layer throws immediately
(`_checkRoot`), with no other failure mode: on a root layer `update` is total
— it refreshes and transitions the tree and only schedules rasterization (the
queue is returned for the asynchronous drain), so backend rendering failures
and geometry degeneracies never propagate to the caller. -/
theorem C9_update_root_contract :
    (∀ (alpha : ℚ) (t : WL) (q : List ℕ),
      updateWL false alpha t q =
        Except.error "Only call `update` on a root WebLayer3D instance") ∧
    (∀ (alpha : ℚ) (t : WL) (q : List ℕ), ∃ r, updateWL true alpha t q = Except.ok r) := by
  constructor
  · intro alpha t q
    rfl
  · intro alpha t q
    exact ⟨_, rfl⟩

/- ---------------------------------------------------------------------------
   Claim C8: removal completion.
--------------------------------------------------------------------------- -/

mutual
theorem observersOff_transition_disposing (a : ℚ) (t : WL) :
    observersOffT (transitionTree a true t) = true := by
  cases t with
  | node d cs =>
    simp only [transitionTree, observersOffT, Bool.and_eq_true, Bool.true_or]
    refine ⟨by simp, ?_⟩
    exact observersOff_transitionF a cs
theorem observersOff_transitionF (a : ℚ) (ts : List WL) :
    observersOffF (transitionForest a true ts) = true := by
  cases ts with
  | nil => rfl
  | cons t ts =>
    simp only [transitionForest, observersOffF, Bool.and_eq_true]
    exact ⟨observersOff_transition_disposing a t, observersOff_transitionF a ts⟩
end

mutual
theorem attachedEq_mapData (f : WLData → WLData)
    (hf : ∀ d, (f d).attached = d.attached) (t : WL) :
    attachedEqT t (mapDataTree f t) = true := by
  cases t with
  | node d cs =>
    simp only [mapDataTree, attachedEqT, Bool.and_eq_true]
    exact ⟨by simp [hf d], attachedEq_mapDataF f hf cs⟩
theorem attachedEq_mapDataF (f : WLData → WLData)
    (hf : ∀ d, (f d).attached = d.attached) (ts : List WL) :
    attachedEqF ts (mapDataForest f ts) = true := by
  cases ts with
  | nil => rfl
  | cons t ts =>
    simp only [mapDataForest, attachedEqF, Bool.and_eq_true]
    exact ⟨attachedEq_mapData f hf t, attachedEq_mapDataF f hf ts⟩
end

mutual
theorem attachedEq_refresh (force : Bool) (t : WL) (q : List ℕ) :
    attachedEqT t ((refreshNode force t q).1) = true := by
  cases t with
  | node d cs =>
    simp only [refreshNode, attachedEqT, Bool.and_eq_true]
    refine ⟨?_, attachedEq_refreshF force cs _⟩
    by_cases h : (d.needsRasterize || force) = true <;> simp [h]
theorem attachedEq_refreshF (force : Bool) (ts : List WL) (q : List ℕ) :
    attachedEqF ts ((refreshForest force ts q).1) = true := by
  cases ts with
  | nil => rfl
  | cons t ts =>
    simp only [refreshForest, attachedEqF, Bool.and_eq_true]
    exact ⟨attachedEq_refresh force t q, attachedEq_refreshF force ts _⟩
end

theorem transitionTree_root_eq (a : ℚ) (d : WLData) (cs : List WL) :
    transitionTree a false (WL.node d cs) =
      WL.node (transitionVisibilityData a d)
        (transitionForest a (false || (d.needsRemoval && hiddenAfter a d)) cs) := by
  simp only [transitionTree, Bool.false_eq_true, if_false]

/-- Claim C8 counterexample, refuting the textures part of the claim: for a
fully faded layer marked `needsRemoval` that owns cached texture 5, the
transition step completes removal — the layer is detached and its observers
disconnected — yet its cached state textures are NOT released: `dispose`
(lines 557-561) only disconnects observers and the texture list still holds
texture 5 afterwards. -/
theorem C8_counterexample :
    (transitionTree 1 false (WL.node c8Data [])).data.attached = false ∧
    (transitionTree 1 false (WL.node c8Data [])).data.observersConnected = false ∧
    (transitionTree 1 false (WL.node c8Data [])).data.textures = [5] ∧
    ¬ (transitionTree 1 false (WL.node c8Data [])).data.textures = [] := by
  norm_num [transitionTree, transitionVisibilityData, hiddenAfter, lerpQ, c8Data,
    WL.data]

/-- Claim C8 (amended): during a transition step a still-attached layer is
detached exactly when it is marked `needsRemoval` and its new opacity is at
the hidden threshold; at that moment its observers — and recursively those of
its whole subtree — are disconnected, while its cached state textures are
left in place (removal does not dispose textures); and no other lifecycle
operation (refresh, mutation processing, rasterization, marking for removal)
ever detaches a layer, so removal is always lazy and animation-gated. -/
theorem C8_removal_completion (a : ℚ) (d : WLData) (cs : List WL)
    (hatt : d.attached = true) :
    ((transitionTree a false (WL.node d cs)).data.attached = false ↔
      (d.needsRemoval = true ∧ hiddenAfter a d = true)) ∧
    ((d.needsRemoval = true ∧ hiddenAfter a d = true) →
      observersOffT (transitionTree a false (WL.node d cs)) = true ∧
      (transitionTree a false (WL.node d cs)).data.textures = d.textures) ∧
    (∀ (force : Bool) (q : List ℕ) (t : WL),
      attachedEqT t ((refreshNode force t q).1) = true) ∧
    (∀ (ds : List ℕ) (t : WL), attachedEqT t (setNRTree ds t) = true) ∧
    (∀ (i : ℕ) (tex : List ℕ) (t : WL), attachedEqT t (rasterizeTree i tex t) = true) ∧
    (∀ t : WL, attachedEqT t (markForRemovalTree t) = true) := by
  have hattEq : (transitionVisibilityData a d).attached =
      if (d.needsRemoval && hiddenAfter a d) = true then false else d.attached := rfl
  have hobsEq : (transitionVisibilityData a d).observersConnected =
      if (d.needsRemoval && hiddenAfter a d) = true then false
      else d.observersConnected := rfl
  refine ⟨?_, ?_, fun force q t => attachedEq_refresh force t q, ?_, ?_, ?_⟩
  · rw [transitionTree_root_eq]
    simp only [WL.data]
    rw [hattEq]
    by_cases hc : (d.needsRemoval && hiddenAfter a d) = true
    · rw [if_pos hc]
      rw [Bool.and_eq_true] at hc
      exact ⟨fun _ => hc, fun _ => rfl⟩
    · rw [if_neg hc, hatt]
      constructor
      · intro h1
        exact Bool.noConfusion h1
      · intro h2
        refine absurd ?_ hc
        rw [Bool.and_eq_true]
        exact h2
  · intro hcomp
    have hc : (d.needsRemoval && hiddenAfter a d) = true := by
      rw [Bool.and_eq_true]
      exact hcomp
    rw [transitionTree_root_eq]
    constructor
    · simp only [observersOffT, Bool.and_eq_true]
      constructor
      · rw [hobsEq, if_pos hc]
        rfl
      · rw [hc, Bool.or_true]
        exact observersOff_transitionF a cs
    · simp only [WL.data]
      rfl
  · intro ds t
    refine attachedEq_mapData _ (fun d2 => ?_) t
    by_cases h : ds.contains d2.id = true
    · rw [if_pos h]
    · rw [if_neg h]
  · intro i tex t
    refine attachedEq_mapData _ (fun d2 => ?_) t
    by_cases h : d2.id = i
    · rw [if_pos h]
    · rw [if_neg h]
  · intro t
    exact attachedEq_mapData (fun d2 => { d2 with needsRemoval := true })
      (fun d2 => rfl) t

/-- Witness for `C8_removal_completion` at the faded removal-marked node. -/
theorem C8_witness :
    c8Data.attached = true ∧
    (((transitionTree 1 false (WL.node c8Data [])).data.attached = false ↔
        (c8Data.needsRemoval = true ∧ hiddenAfter 1 c8Data = true)) ∧
      ((c8Data.needsRemoval = true ∧ hiddenAfter 1 c8Data = true) →
        observersOffT (transitionTree 1 false (WL.node c8Data [])) = true ∧
        (transitionTree 1 false (WL.node c8Data [])).data.textures =
          c8Data.textures) ∧
      (∀ (force : Bool) (q : List ℕ) (t : WL),
        attachedEqT t ((refreshNode force t q).1) = true) ∧
      (∀ (ds : List ℕ) (t : WL), attachedEqT t (setNRTree ds t) = true) ∧
      (∀ (i : ℕ) (tex : List ℕ) (t : WL),
        attachedEqT t (rasterizeTree i tex t) = true) ∧
      (∀ t : WL, attachedEqT t (markForRemovalTree t) = true)) :=
  ⟨rfl, C8_removal_completion 1 c8Data [] rfl⟩

/- ---------------------------------------------------------------------------
   Claims C5 and C6: the mutation-processing guard and class-change dirtying.
--------------------------------------------------------------------------- -/

/-- Claim C5: while the root's `_isUpdating` guard flag is set, delivered
mutation records are not processed — no layer's `needsRasterize` flag changes
in that pass — and records delivered outside an update pass are processed in
delivery order.  (Asynchronous deliveries queue in the observer until after
the synchronous pass; the guard covers the synchronous `takeRecords`
deliveries issued by `_disableTransforms` during rasterization.) -/
theorem C5_mutation_guard (records : List ClassRecord) (root : ETree) :
    processMutations true records root = root ∧
    processMutations false records root = records.foldl processClassRecord root :=
  ⟨rfl, rfl⟩

mutual
theorem allMarked_setENRT (ds : List ℕ) (t : ETree) :
    allMarkedT ds (setENRT ds t) = true := by
  cases t with
  | node d cs =>
    simp only [setENRT, allMarkedT, Bool.and_eq_true]
    refine ⟨?_, allMarked_setENRF ds cs⟩
    by_cases h : d.eid ∈ ds
    · simp [h]
    · simp [h]
theorem allMarked_setENRF (ds : List ℕ) (ts : List ETree) :
    allMarkedF ds (setENRF ds ts) = true := by
  cases ts with
  | nil => rfl
  | cons t ts =>
    simp only [setENRF, allMarkedF, Bool.and_eq_true]
    exact ⟨allMarked_setENRT ds t, allMarked_setENRF ds ts⟩
end

/-- Claim C6: a class-attribute mutation record that adds a class `c` which is
neither `"hover"` nor a cached state of the owning layer dirties that layer:
processing the record sets `needsRasterize` on the owning layer and on every
layer whose element lies in the mutated element's subtree. -/
theorem C6_class_mutation_dirties (root : ETree) (r : ClassRecord)
    (lid : ℕ) (cached : List String) (sub : ETree) (c : String)
    (hfound : closestLayerT none r.target root = some (some (lid, cached)))
    (hsub : subtreeOfT r.target root = some sub)
    (hcadd : c ∈ r.newClasses) (hcold : c ∉ r.oldClasses)
    (hchov : ¬ c = "hover") (hcst : ¬ cached.contains c = true) :
    processClassRecord root r = setENRT (lid :: layerEidsT sub) root ∧
    allMarkedT (lid :: layerEidsT sub) (processClassRecord root r) = true := by
  have hne : ¬ r.newClasses = r.oldClasses := fun he => hcold (he ▸ hcadd)
  have hdirty : ((arraySubtract r.oldClasses r.newClasses ++
      arraySubtract r.newClasses r.oldClasses).any
      (fun c2 => decide (¬ (c2 = "hover" ∨ cached.contains c2 = true)))) = true := by
    rw [List.any_eq_true]
    refine ⟨c, List.mem_append_right _ ?_, ?_⟩
    · unfold arraySubtract
      refine List.mem_filter.mpr ⟨hcadd, ?_⟩
      simp [hcold]
    · rw [decide_eq_true_eq]
      rintro (h | h)
      · exact hchov h
      · exact hcst h
  have heq : processClassRecord root r = setENRT (lid :: layerEidsT sub) root := by
    simp only [processClassRecord, hfound]
    rw [if_neg hne, if_pos hdirty, hsub]
  exact ⟨heq, by rw [heq]; exact allMarked_setENRT _ root⟩

/-- Witness for `C6_class_mutation_dirties`: adding class `"b"` (not a state)
on element 1 of the concrete DOM dirties the owning root layer 0 and the
nested layer 2 inside the mutated element. -/
theorem C6_witness :
    closestLayerT none 1 c6Root = some (some (0, ["a", ""])) ∧
    subtreeOfT 1 c6Root = some c6Sub ∧
    "b" ∈ (["b"] : List String) ∧ "b" ∉ ([] : List String) ∧
    ¬ "b" = "hover" ∧ ¬ (["a", ""] : List String).contains "b" = true ∧
    (processClassRecord c6Root ⟨1, [], ["b"]⟩ =
        setENRT (0 :: layerEidsT c6Sub) c6Root ∧
      allMarkedT (0 :: layerEidsT c6Sub)
        (processClassRecord c6Root ⟨1, [], ["b"]⟩) = true) :=
  ⟨rfl, rfl, by decide, by decide, by decide, by decide,
    C6_class_mutation_dirties c6Root ⟨1, [], ["b"]⟩ 0 ["a", ""] c6Sub "b"
      rfl rfl (by decide) (by decide) (by decide) (by decide)⟩

end ThreeWebLayer
